import Mathlib

set_option maxHeartbeats 1000000
set_option maxRecDepth 100000

/-!
Verification development for the Image Processor batch tool
(`Image_Processor.py`).  The Python source is shallowly embedded below:
pure computations become Lean functions, the filesystem and the PIL
image library become explicit state records / abstract parameters, and
raised exceptions become `Except` / explicit error fields.  Machine
floats in the source appear only in computations that are exact for
realistic inputs (division by `1024.0`, multiplication by `100`) or
that are modelled by exact rational arithmetic (percentage rounding);
each such spot is documented at its definition.
-/

/-! ### Decimal numerals (Python `str` of a non-negative int) -/

/-- Character of a single decimal digit (`0 ≤ d < 10`). -/
def digitChar (d : Nat) : Char := Char.ofNat (48 + d)

/-- Fuelled big-endian digit expansion; `fuel ≥ n` suffices. -/
def decDigitsGo : Nat → Nat → List Nat
  | 0, _ => []
  | _ + 1, 0 => []
  | f + 1, n + 1 => decDigitsGo f ((n + 1) / 10) ++ [(n + 1) % 10]

/-- Big-endian decimal digits of `n`, with `decDigits 0 = [0]`,
exactly the digits of Python's `str(n)` for a non-negative int. -/
def decDigits (n : Nat) : List Nat := if n = 0 then [0] else decDigitsGo n n

/-- Python's `str(n)` for a non-negative int. -/
def natStr (n : Nat) : String := String.mk ((decDigits n).map digitChar)

/-- Numeric value of a decimal-digit character. -/
def charVal (c : Char) : Nat := c.toNat - 48

/-- Value of a big-endian digit list. -/
def valNat (ds : List Nat) : Nat := ds.foldl (fun a d => 10 * a + d) 0

/-- Value of a big-endian string of digit characters. -/
def valNatC (cs : List Char) : Nat := cs.foldl (fun a c => 10 * a + charVal c) 0

/-- Reads a decimal numeral, optionally containing one decimal point,
as the rational number it denotes (e.g. `".1"` denotes `1/10`,
`"3.25"` denotes `13/4`).  Returns `none` on any other string. -/
def parseDecimal (cs : List Char) : Option ℚ :=
  let intPart := cs.takeWhile (fun c => c != '.')
  let rest := cs.dropWhile (fun c => c != '.')
  if intPart.all Char.isDigit then
    match rest with
    | [] => some (valNatC intPart)
    | _ :: frac =>
      if frac.all Char.isDigit then
        some ((valNatC intPart : ℚ) + (valNatC frac : ℚ) / 10 ^ frac.length)
      else none
  else none

/-- Erase every digit character of a string, leaving its fixed text. -/
def stripDigits (s : String) : String := String.mk (s.data.filter (fun c => !c.isDigit))

/-- Python's `s.lower().endswith(suffix)` (ASCII lowering; every
filename and suffix in play is ASCII). -/
def lower_endswith (s suffix : String) : Bool :=
  suffix.data.isSuffixOf (s.data.map Char.toLower)

/-- Python's `s.startswith(pre)`. -/
def py_startswith (s pre : String) : Bool := pre.data.isPrefixOf s.data

/-- Python's `s.split(',')`: splitting on every comma, so that the
empty string yields `[""]` and `"a,"` yields `["a", ""]`. -/
def split_on_comma : List Char → List (List Char)
  | [] => [[]]
  | c :: rest =>
    if c = ',' then [] :: split_on_comma rest
    else
      match split_on_comma rest with
      | [] => [[c]]
      | group :: groups => (c :: group) :: groups

/-! ### Action registry (`Base_Image_Action` and its subclasses)

Each `Base_Image_Action` subclass contributes its class attributes.
The subclass list (`Base_Image_Action.__subclasses__()`) is embedded as
an explicit list of these records; `execute` bodies are embedded as
separate functions below, and the batch engine receives action
behaviour as a function keyed by `action_name` (names are unique in
the registry, which the registry lookups depend on). -/

structure ImageAction where
  action_name : String
  widget_title : String
  status_msg : String
  add_to_ui : Bool
  can_execute : Bool
deriving DecidableEq, Repr

/-- Class attributes of `Action_Compress_PNG`. -/
def Action_Compress_PNG : ImageAction :=
  { action_name := "compress_png", widget_title := "Compress PNGs",
    status_msg := "Compressing ", add_to_ui := true, can_execute := true }

/-- Class attributes of `Action_Check_Power_Of_2` (`add_to_ui` and
`can_execute` inherited from `Base_Image_Action`). -/
def Action_Check_Power_Of_2 : ImageAction :=
  { action_name := "check_power_of_2", widget_title := "Check Power of 2",
    status_msg := "Checking Power of 2 on", add_to_ui := true, can_execute := false }

/-- Class attributes of `Action_Verify_PBR_Values`. -/
def Action_Verify_PBR_Values : ImageAction :=
  { action_name := "verify_pbr_values", widget_title := "Verify PBR Values",
    status_msg := "Verifying PBR Values on", add_to_ui := true, can_execute := false }

/-- `Base_Image_Action.__subclasses__()`: the registered actions, in
declaration order. -/
def image_action_registry : List ImageAction :=
  [Action_Compress_PNG, Action_Check_Power_Of_2, Action_Verify_PBR_Values]

/-- Python truthiness of the engine's `self.actions` attribute
(`None` and the empty list are falsy). -/
def actions_truthy (actions : Option (List String)) : Bool :=
  match actions with
  | none => false
  | some l => !l.isEmpty

/-- `Image_Batch.get_subclass_actions_to_perform`: per subclass, when
`self.actions` is truthy keep the subclass iff its `action_name` is a
member, otherwise keep it iff `can_execute`; finally `list(set(...))`
(embedded as `dedup`).  The CPython set iteration order is arbitrary,
so theorems about the result are stated up to membership; and the set
dedupes class objects by identity — two distinct registered classes
are never merged, even when they share an `action_name` — while
`dedup` merges structurally equal records, so every
duplicate-registration fixture below keeps its duplicates distinct in
some attribute, where both semantics agree. -/
def get_subclass_actions_to_perform (registry : List ImageAction)
    (actions : Option (List String)) : List ImageAction :=
  (registry.filter (fun sub_class =>
    if actions_truthy actions then decide (sub_class.action_name ∈ actions.getD [])
    else sub_class.can_execute)).dedup

/-- The `-actions=` command-line flag constant. -/
def ARG_ACTIONS : String := "-actions="

/-- The actions-list extraction of `run`: the last `-actions=`-prefixed
argument is split on `","` (Python `str.split(',')`, which yields
`[""]` on the empty string); with no such argument the list stays
`None`. -/
def run_parse_actions (arguments : List String) : Option (List String) :=
  arguments.foldl
    (fun acc arg =>
      if py_startswith arg ARG_ACTIONS then
        some ((split_on_comma (arg.data.drop ARG_ACTIONS.data.length)).map String.mk)
      else acc)
    none

/-! ### Images, the filesystem, and `Image_Object` -/

/-- A decoded PIL image: dimensions, colour mode, and the per-channel
pixel sequences that `image.split()` would produce (`getdata()` of a
channel is its pixel list). -/
structure PILImage where
  width : Nat
  height : Nat
  mode : String
  red : List Nat
  green : List Nat
  blue : List Nat
  alpha : Option (List Nat)
deriving DecidableEq, Repr

instance : Inhabited PILImage := ⟨⟨0, 0, "", [], [], [], none⟩⟩

/-- The ambient state an action runs against: the bytes of each file on
disk (`os.stat(...).st_size` is the length), what PIL decodes each
file to, and the writability permission bit of each file. -/
structure World where
  content : String → List Nat
  decoded : String → PILImage
  writable : String → Bool

/-- `Image_Object`: wraps one file (existence of the file at
construction is assumed; the engine only constructs these from
directory listings). -/
structure Image_Object where
  filename : String
  image : Option PILImage
  is_editable : Bool
  is_open : Bool
deriving DecidableEq, Repr

/-- `Image_Object.open`: load the pixel data with PIL. -/
def image_open (w : World) (obj : Image_Object) : Image_Object :=
  { obj with image := some (w.decoded obj.filename), is_open := true }

/-- `Image_Object.save`: refresh `is_editable` from the permission
bits, then write the re-encoded image back iff editable and open
(silent no-op otherwise).  `reencode` abstracts the PIL encoder
(`self.image.save(filename, ...)`). -/
def image_save (reencode : PILImage → List Nat) (w : World) (obj : Image_Object) :
    World × Image_Object :=
  let obj1 := { obj with is_editable := w.writable obj.filename }
  if obj1.is_editable && obj1.is_open then
    match obj1.image with
    | some img =>
      ({ w with content := fun f => if f = obj1.filename then reencode img else w.content f },
       obj1)
    | none => (w, obj1)
  else (w, obj1)

/-- The open guard every action starts with
(`if not image_obj.is_open: image_obj.open()`). -/
def ensure_open (w : World) (image_obj : Image_Object) : Image_Object :=
  if image_obj.is_open then image_obj else image_open w image_obj

/-- `os.path.basename` (with `/` as separator). -/
def basename (s : String) : String :=
  String.mk ((s.data.reverse.takeWhile (fun c => c != '/')).reverse)

/-- `os.path.join` (POSIX form; the joined names here are plain
`os.listdir` entries, so no absolute-path override arises). -/
def path_join (d f : String) : String := d ++ "/" ++ f

/-- `os.path.splitext(name)[-1].replace('.', '')`: the extension of a
file name without its dot; leading dots of the name do not start an
extension (CPython `splitext` rule). -/
def splitext_ext (name : String) : String :=
  let body := name.data.dropWhile (fun c => c == '.')
  if body.any (fun c => c == '.') then
    String.mk ((body.reverse.takeWhile (fun c => c != '.')).reverse)
  else ""

/-! ### `Action_Compress_PNG.execute` -/

/-- The integer `int(float(diff)/1024.0*100)` of the compress action
for a positive byte delta `d`.  The Python float computation is exact
(dividing by the power of two `1024.0` keeps the mantissa, and the
product with `100` is exactly representable whenever `d * 25 < 2^53`,
i.e. for every realistic file size), so it is embedded as exact
natural arithmetic. -/
def kb_int (d : Nat) : Nat := d * 100 / 1024

/-- The character string `kb_str` of `Action_Compress_PNG.execute`:
`kb_raw = str(kb_int)`, then `"{0}.{1}".format(kb_raw[0:-2],
kb_raw[-2:])` — the decimal point is spliced in two characters from
the right of the digit string (Python slices clamp, exactly like
`take`/`drop` with truncated subtraction). -/
def kb_figure (d : Nat) : List Char :=
  let kb_raw := (decDigits (kb_int d)).map digitChar
  kb_raw.take (kb_raw.length - 2) ++ '.' :: kb_raw.drop (kb_raw.length - 2)

/-- `kb_figure` as a string. -/
def kb_str (d : Nat) : String := String.mk (kb_figure d)

/-- `Action_Compress_PNG.execute`.  Returns the `(success, report_msg)`
pair together with the resulting world and image object.  The
`success`/`report_msg` initialisation (`False`, `"Failed to complete
the action for unknown reasons"`) survives to the result whenever
neither the `diff > 0` nor the `diff == 0` branch fires. -/
def Action_Compress_PNG_execute (reencode : PILImage → List Nat) (w : World)
    (image_obj : Image_Object) : (Bool × String) × World × Image_Object :=
  if lower_endswith image_obj.filename ".png" then
    let original_file_size := (w.content image_obj.filename).length
    let obj1 := ensure_open w image_obj
    let saved := image_save reencode w obj1
    let w1 := saved.1
    let obj2 := saved.2
    let new_file_size := (w1.content obj2.filename).length
    let file_size_diff : Int := (original_file_size : Int) - (new_file_size : Int)
    if 0 < file_size_diff then
      ((true, "Compression saved " ++ kb_str file_size_diff.toNat ++ " kbs on disk"), w1, obj2)
    else if file_size_diff = 0 then
      ((false, "Compression did not save any memory on disk"), w1, obj2)
    else
      ((false, "Failed to complete the action for unknown reasons"), w1, obj2)
  else
    ((false, basename image_obj.filename ++ " is not a PNG file"), w, image_obj)

/-! ### `Action_Check_Power_Of_2.execute` -/

/-- The bit trick `n != 0 and (n & (n - 1)) == 0` applied to one
dimension. -/
def pow2_bit (n : Nat) : Bool := n != 0 && (n &&& (n - 1)) == 0

/-- `Action_Check_Power_Of_2.execute`.  Opens the image if needed and
tests both dimensions with the bit trick (after the open guard
`image` is always loaded; `getD` covers the vacuous `none` case). -/
def Action_Check_Power_Of_2_execute (w : World) (image_obj : Image_Object) :
    (Bool × String) × Image_Object :=
  let obj1 := ensure_open w image_obj
  let img := obj1.image.getD default
  let wd := img.width
  let ht := img.height
  let w_pow := pow2_bit wd
  let h_pow := pow2_bit ht
  if w_pow && h_pow then
    ((true, "Width:" ++ natStr wd ++ " and Height:" ++ natStr ht
        ++ " are both a proper power of 2"), obj1)
  else
    ((false, "Either Width:" ++ natStr wd ++ " or Height:" ++ natStr ht
        ++ " is NOT a proper power of 2"), obj1)

/-! ### `Action_Verify_PBR_Values.execute` -/

/-- Floor of a rational, computed from numerator and denominator
(`Int.fdiv` is floor division; `q.den` is positive). -/
def qfloor (q : ℚ) : ℤ := Int.fdiv q.num (q.den : ℤ)

/-- Round-to-nearest with ties to even, the rounding CPython's
`"{0:.0f}".format` applies to a float value.  The float computation
`float(bad)/float(total)*100.0` is embedded as exact rational
arithmetic; its double rounding error is far below the distance of
every value appearing in the theorems below from a tie. -/
def roundHalfEven (q : ℚ) : ℤ :=
  let n := qfloor q
  let r := q - (n : ℚ)
  if r < 1 / 2 then n
  else if 1 / 2 < r then n + 1
  else if 2 ∣ n then n else n + 1

/-- `Action_Verify_PBR_Values.execute`.  The channel variables
`red`, ... are bound only by the `RGB`/`RGBA` mode tests; the metal
check on an `_mra.png` file with any other mode therefore raises a
`NameError` (embedded as `.error`).  Returns the verdict pair and the
(possibly opened) image object. -/
def Action_Verify_PBR_Values_execute (w : World) (image_obj : Image_Object) :
    Except String ((Bool × String) × Image_Object) :=
  let obj1 := ensure_open w image_obj
  let img := obj1.image.getD default
  let redChan : Option (List Nat) :=
    if img.mode = "RGB" || img.mode = "RGBA" then some img.red else none
  if lower_endswith obj1.filename "_mra.png" then
    match redChan with
    | none => .error "NameError: name 'red' is not defined"
    | some red =>
      let bad_pixels := red.countP (fun pixel => decide (0 < pixel) && decide (pixel < 255))
      if 0 < bad_pixels then
        let perc := roundHalfEven ((bad_pixels : ℚ) / (red.length : ℚ) * 100)
        let perc_str := if perc = 0 then "Less than 0" else natStr perc.toNat
        .ok ((false,
          perc_str ++ "% of the pixels in the red channel are not valid METAL values"), obj1)
      else
        .ok ((true, "Passed all PBR validation tests"), obj1)
  else
    .ok ((true, "Passed all PBR validation tests"), obj1)

/-! ### `Log_File` (batch report) -/

/-- The report: the two mappings keyed by file path (embedded as
functions returning the per-file entry lists, empty when the key is
absent), the target filename, the persistence flag and completion
state.  `start_time`/`end_time` (wall-clock reads) are not modelled. -/
structure LogFile where
  filename : String
  file_results : String → List (String × Bool × String)
  file_fails : String → List (String × String)
  save_log : Bool
  completed : Bool

/-- `Log_File.__init__`. -/
def Log_File_new (filename : String) : LogFile :=
  { filename := filename, file_results := fun _ => [], file_fails := fun _ => [],
    save_log := true, completed := false }

/-- `Log_File.clear`: empties both mappings, nothing else. -/
def log_clear (log : LogFile) : LogFile :=
  { log with file_results := fun _ => [], file_fails := fun _ => [] }

/-- `Log_File.add_file_result`: append to the file's result list
(starting one when the key is new). -/
def add_file_result (log : LogFile) (filename action_name : String) (success : Bool)
    (results : String) : LogFile :=
  { log with file_results := fun f =>
      if f = filename then log.file_results f ++ [(action_name, success, results)]
      else log.file_results f }

/-- `Log_File.add_file_fail`: append to the file's failure list. -/
def add_file_fail (log : LogFile) (filename action_name : String) (results : String) :
    LogFile :=
  { log with file_fails := fun f =>
      if f = filename then log.file_fails f ++ [(action_name, results)]
      else log.file_fails f }

/-- One action-result bookkeeping step of the engine loop body: record
the result, and also record the failure when `success` is false. -/
def log_step (log : LogFile) (filename action_name : String) (success : Bool)
    (results : String) : LogFile :=
  let log1 := add_file_result log filename action_name success results
  if success then log1 else add_file_fail log1 filename action_name results

/-- The report invariant: for every file, `file_fails` is exactly the
`passed == false` subset of `file_results` (in order, dropping the
success flag). -/
def log_inv (log : LogFile) : Prop :=
  ∀ f, log.file_fails f =
    ((log.file_results f).filter (fun r => !r.2.1)).map (fun r => (r.1, r.2.2))

/-! ### `Image_Batch` (batch engine) -/

/-- `Image_Batch.get_image_files`: a directory that does not exist
contributes no files; otherwise keep the regular files whose
extension (without dot) is in the configured extension list, joined
onto the directory.  The filesystem is a map from a directory to the
list of its regular-file names (`os.listdir` order), or `none` when
the directory does not exist. -/
def get_image_files (fs : String → Option (List String)) (extensions : List String)
    (directory : String) : List String :=
  match fs directory with
  | none => []
  | some names => (names.filter (fun f => decide (splitext_ext f ∈ extensions))).map
      (path_join directory)

/-- The `file_count` loop of `Image_Batch.update_status_incr`. -/
def total_file_count (fs : String → Option (List String)) (extensions : List String)
    (dirs : List String) : Nat :=
  (dirs.map (fun directory => (get_image_files fs extensions directory).length)).sum

/-- The run state threaded through one `Image_Batch.start` call:
the report, the progress value (`status_value`), the report contents
written to disk (`none` while nothing has been written), the pending
exception (`none` while none was raised), and the trace of
`execute` calls made so far (file path, action name). -/
structure EngState where
  log : LogFile
  status_value : ℚ
  written : Option LogFile
  err : Option String
  processed : List (String × String)

/-- Run a sequence of `execute` calls (file path × action pairs):
each call either raises — recorded in `err`, ending the run — or
yields `(success, results)`, which the engine records via the
`add_file_result` / `add_file_fail` pair.  `behavior` gives each
action's `execute` result on each file path, keyed by `action_name`
(registry names are unique). -/
def exec_pairs (behavior : String → String → Except String (Bool × String)) :
    List (String × ImageAction) → EngState → EngState
  | [], st => st
  | (path, a) :: rest, st =>
    if st.err.isSome then st
    else
      match behavior a.action_name path with
      | .error e =>
        { st with err := some e, processed := st.processed ++ [(path, a.action_name)] }
      | .ok (success, results) =>
        exec_pairs behavior rest
          { st with
            log := log_step st.log path a.action_name success results,
            processed := st.processed ++ [(path, a.action_name)] }

/-- The per-file body of the engine loop: bump the progress by the
per-file increment (`update_status_value()`), then run every active
action on the file. -/
def run_file (behavior : String → String → Except String (Bool × String)) (incr : ℚ)
    (actions : List ImageAction) (path : String) (st : EngState) : EngState :=
  if st.err.isSome then st
  else
    exec_pairs behavior (actions.map (fun a => (path, a)))
      { st with status_value := st.status_value + incr }

/-- `Image_Batch.start`.  Clears the report, derives the per-file
progress increment `100.0 / float(file_count)` — raising
`ZeroDivisionError` when no file matches — resolves the active
actions, then drives the directory × file × action loops; an
exception raised by any `execute` propagates (no later file or action
runs, the report is not saved).  On normal completion the report is
marked completed, saved when persistence is on, and the progress set
to `100`.  `init_status` is the engine's `status_value` before the
call (`0` from `__init__`). -/
def Image_Batch_start (fs : String → Option (List String))
    (behavior : String → String → Except String (Bool × String))
    (registry : List ImageAction) (dirs extensions : List String)
    (actions : Option (List String)) (log0 : LogFile) (init_status : ℚ) : EngState :=
  let log1 := log_clear log0
  let file_count := total_file_count fs extensions dirs
  if file_count = 0 then
    { log := log1, status_value := init_status, written := none,
      err := some "ZeroDivisionError: float division by zero", processed := [] }
  else
    let status_incr : ℚ := 100 / (file_count : ℚ)
    let st0 : EngState :=
      { log := log1, status_value := 0, written := none, err := none, processed := [] }
    let active := get_subclass_actions_to_perform registry actions
    let st1 := dirs.foldl
      (fun st directory =>
        (get_image_files fs extensions directory).foldl
          (fun st path => run_file behavior status_incr active path st) st)
      st0
    if st1.err.isSome then st1
    else
      let log2 := { st1.log with completed := true }
      { log := log2, status_value := 100,
        written := if log2.save_log then some log2 else none,
        err := none, processed := st1.processed }

/-- The full sequence of `execute` calls a run would make if nothing
raised: every matching file of every configured directory, in order,
crossed with the active actions. -/
def planned_pairs (fs : String → Option (List String)) (extensions : List String)
    (dirs : List String) (active : List ImageAction) : List (String × ImageAction) :=
  (dirs.flatMap (get_image_files fs extensions)).flatMap
    (fun path => active.map (fun a => (path, a)))

/-! ### Spec-side readings used to settle the claims -/

/-- The claim that the power-of-two failure message "cites which
dimension failed": a message that does so must differ in its
non-numeral text between a width-only failure and a height-only
failure (the numerals themselves merely report both dimensions). -/
def claim_pow2_cites_failure : Prop :=
  ∀ (w1 w2 : World) (o1 o2 : Image_Object) (img1 img2 : PILImage),
    (if o1.is_open then o1 else image_open w1 o1).image = some img1 →
    (if o2.is_open then o2 else image_open w2 o2).image = some img2 →
    pow2_bit img1.width = false → pow2_bit img1.height = true →
    pow2_bit img2.width = true → pow2_bit img2.height = false →
    stripDigits (Action_Check_Power_Of_2_execute w1 o1).1.2 ≠
      stripDigits (Action_Check_Power_Of_2_execute w2 o2).1.2

/-- The PBR failure message as the claim describes it: percentage
figure `bad_count / total_count * 100` floored to an integer,
prefixed with `"Less than"` exactly when the floored value is `0`
(the claim only invokes this with `bad_count > 0`). -/
def pbr_floor_msg (bad_count total_count : Nat) : String :=
  let perc := qfloor ((bad_count : ℚ) / (total_count : ℚ) * 100)
  let perc_str := if perc = 0 then "Less than 0" else natStr perc.toNat
  perc_str ++ "% of the pixels in the red channel are not valid METAL values"

/-! ### Concrete fixtures for witnesses and counterexamples -/

/-- A world decoding every path to the given image (compression reads
no pixels in the fixtures that use this). -/
def world_of (img : PILImage) : World :=
  { content := fun _ => [], decoded := fun _ => img, writable := fun _ => false }

/-- A world whose every file holds `n` zero bytes and is writable. -/
def world_bytes (n : Nat) : World :=
  { content := fun _ => List.replicate n 0, decoded := fun _ => default,
    writable := fun _ => true }

/-- An encoder producing `m` bytes regardless of the image. -/
def reencode_const (m : Nat) : PILImage → List Nat := fun _ => List.replicate m 0

/-- A freshly constructed `Image_Object` on a path (as the engine
builds them: nothing loaded yet). -/
def fresh_obj (name : String) : Image_Object :=
  { filename := name, image := none, is_editable := false, is_open := false }

/-- An image of the given dimensions with no pixel payload. -/
def img_sized (wd ht : Nat) : PILImage :=
  { width := wd, height := ht, mode := "RGB", red := [], green := [], blue := [],
    alpha := none }

/-- An RGB image whose red channel is the given pixel list. -/
def img_mra (red : List Nat) : PILImage :=
  { width := 4, height := 4, mode := "RGB", red := red, green := [], blue := [],
    alpha := none }

/-- A filesystem where directory `"empty"` exists with no entries and
every other directory does not exist. -/
def fs_no_matches : String → Option (List String) :=
  fun d => if d = "empty" then some [] else none

/-- A filesystem with one directory `"d"` holding one PNG file. -/
def fs_one_png : String → Option (List String) :=
  fun d => if d = "d" then some ["a.png"] else none

/-- An action behaviour whose every `execute` raises. -/
def behavior_raise : String → String → Except String (Bool × String) :=
  fun _ _ => .error "IOError: broken file"

/-- An action behaviour whose every `execute` fails softly. -/
def behavior_fail : String → String → Except String (Bool × String) :=
  fun _ _ => .ok (false, "failed")

/-! ### Helper lemmas: decimal numerals -/

theorem decDigitsGo_zero (f : Nat) : decDigitsGo f 0 = [] := by
  cases f <;> rfl

theorem decDigitsGo_eq_digits :
    ∀ f n : Nat, 0 < n → n ≤ f → decDigitsGo f n = (Nat.digits 10 n).reverse := by
  intro f
  induction f with
  | zero => intro n h0 hf; omega
  | succ f ih =>
    intro n h0 hf
    match n, h0 with
    | n + 1, _ =>
      rw [Nat.digits_def' (by norm_num : (1:ℕ) < 10) (Nat.succ_pos n)]
      show decDigitsGo f ((n + 1) / 10) ++ [(n + 1) % 10] = _
      rw [List.reverse_cons]
      by_cases hq : (n + 1) / 10 = 0
      · rw [hq, decDigitsGo_zero, Nat.digits_zero, List.reverse_nil]
      · rw [ih ((n + 1) / 10) (Nat.pos_of_ne_zero hq)
          (by have := Nat.div_lt_self (Nat.succ_pos n) (by norm_num : 1 < 10); omega)]

theorem decDigits_eq_digits (n : Nat) (h : 0 < n) :
    decDigits n = (Nat.digits 10 n).reverse := by
  unfold decDigits
  rw [if_neg (by omega)]
  exact decDigitsGo_eq_digits n n h le_rfl

theorem valNat_append_singleton (ds : List Nat) (d : Nat) :
    valNat (ds ++ [d]) = 10 * valNat ds + d := by
  simp [valNat, List.foldl_append]

theorem valNat_reverse (ds : List Nat) : valNat ds.reverse = Nat.ofDigits 10 ds := by
  induction ds with
  | nil => rfl
  | cons d tl ih =>
    rw [List.reverse_cons, valNat_append_singleton, ih, Nat.ofDigits_cons]
    ring

theorem charVal_digitChar {d : Nat} (h : d < 10) : charVal (digitChar d) = d := by
  interval_cases d <;> decide

theorem digitChar_isDigit {d : Nat} (h : d < 10) : (digitChar d).isDigit = true := by
  interval_cases d <;> decide

theorem digitChar_ne_dot {d : Nat} (h : d < 10) : (digitChar d != '.') = true := by
  interval_cases d <;> decide

theorem valNatC_go (ds : List Nat) (h : ∀ d ∈ ds, d < 10) :
    ∀ a : Nat, (ds.map digitChar).foldl (fun x c => 10 * x + charVal c) a =
      ds.foldl (fun x d => 10 * x + d) a := by
  induction ds with
  | nil => intro a; rfl
  | cons d tl ih =>
    intro a
    have hd : d < 10 := h d (by simp)
    simp only [List.map_cons, List.foldl_cons, charVal_digitChar hd]
    exact ih (fun x hx => h x (by simp [hx])) _

theorem valNatC_map_digitChar (ds : List Nat) (h : ∀ d ∈ ds, d < 10) :
    valNatC (ds.map digitChar) = valNat ds :=
  valNatC_go ds h 0

theorem takeWhile_middle (p : Char → Bool) (xs : List Char) (y : Char) (ys : List Char)
    (hxs : ∀ x ∈ xs, p x = true) (hy : p y = false) :
    (xs ++ y :: ys).takeWhile p = xs ∧ (xs ++ y :: ys).dropWhile p = y :: ys := by
  induction xs with
  | nil => simp [List.takeWhile_cons, List.dropWhile_cons, hy]
  | cons x xs ih =>
    have hx : p x = true := hxs x (by simp)
    have ih' := ih (fun z hz => hxs z (by simp [hz]))
    simp [List.takeWhile_cons, List.dropWhile_cons, hx, ih'.1, ih'.2]

theorem parseDecimal_digits (ip fp : List Nat) (hip : ∀ d ∈ ip, d < 10)
    (hfp : ∀ d ∈ fp, d < 10) :
    parseDecimal (ip.map digitChar ++ '.' :: fp.map digitChar) =
      some ((valNat ip : ℚ) + (valNat fp : ℚ) / 10 ^ fp.length) := by
  have hmid := takeWhile_middle (fun c => c != '.') (ip.map digitChar) '.'
    (fp.map digitChar)
    (by intro x hx
        obtain ⟨d, hd, rfl⟩ := List.mem_map.mp hx
        exact digitChar_ne_dot (hip d hd))
    (by decide)
  have hipd : (ip.map digitChar).all Char.isDigit = true := by
    rw [List.all_eq_true]
    intro x hx
    obtain ⟨d, hd, rfl⟩ := List.mem_map.mp hx
    exact digitChar_isDigit (hip d hd)
  have hfpd : (fp.map digitChar).all Char.isDigit = true := by
    rw [List.all_eq_true]
    intro x hx
    obtain ⟨d, hd, rfl⟩ := List.mem_map.mp hx
    exact digitChar_isDigit (hfp d hd)
  unfold parseDecimal
  rw [hmid.1, hmid.2, if_pos hipd]
  show (if (fp.map digitChar).all Char.isDigit = true then
      some ((valNatC (ip.map digitChar) : ℚ)
        + (valNatC (fp.map digitChar) : ℚ) / 10 ^ (fp.map digitChar).length)
    else none) = _
  rw [if_pos hfpd, valNatC_map_digitChar ip hip, valNatC_map_digitChar fp hfp,
    List.length_map]

theorem kb_figure_eq (d : Nat) :
    kb_figure d =
      ((decDigits (kb_int d)).map digitChar).take
          (((decDigits (kb_int d)).map digitChar).length - 2)
        ++ '.' :: ((decDigits (kb_int d)).map digitChar).drop
          (((decDigits (kb_int d)).map digitChar).length - 2) := rfl

theorem digits_two_le_length {k : Nat} (h : 10 ≤ k) : 2 ≤ (Nat.digits 10 k).length := by
  by_contra hlt
  have hlen : (Nat.digits 10 k).length ≤ 1 := by omega
  have hk : k < 10 ^ (Nat.digits 10 k).length :=
    Nat.lt_base_pow_length_digits (by norm_num)
  have : (10:ℕ) ^ (Nat.digits 10 k).length ≤ 10 ^ 1 :=
    Nat.pow_le_pow_right (by norm_num) hlen
  simp at this
  omega

theorem parse_kb_figure (d : Nat) (h : kb_int d = 0 ∨ 10 ≤ kb_int d) :
    parseDecimal (kb_figure d) = some ((kb_int d : ℚ) / 100) := by
  rcases h with h0 | h10
  · have hfig : kb_figure d = List.map digitChar [] ++ '.' :: List.map digitChar [0] := by
      rw [kb_figure_eq, h0]
      rfl
    rw [hfig, parseDecimal_digits [] [0] (by simp) (by intro x hx; simp at hx; omega), h0]
    norm_num [valNat]
  · set k := kb_int d with hk
    have hkpos : 0 < k := by omega
    set l := Nat.digits 10 k with hl
    have hlen : 2 ≤ l.length := digits_two_le_length h10
    have hdig : ∀ x ∈ l, x < 10 := fun x hx => Nat.digits_lt_base (by norm_num) hx
    have hsplit : l = l.take 2 ++ l.drop 2 := (List.take_append_drop 2 l).symm
    have hlo_len : (l.take 2).length = 2 := by
      rw [List.length_take]
      omega
    have hrev : (decDigits k).map digitChar =
        (l.drop 2).reverse.map digitChar ++ (l.take 2).reverse.map digitChar := by
      rw [decDigits_eq_digits k hkpos, ← hl]
      conv_lhs => rw [hsplit]
      rw [List.reverse_append, List.map_append]
    have hlen_all : ((decDigits k).map digitChar).length = l.length := by
      rw [decDigits_eq_digits k hkpos, ← hl, List.length_map, List.length_reverse]
    have hpre_len : ((l.drop 2).reverse.map digitChar).length = l.length - 2 := by
      rw [List.length_map, List.length_reverse, List.length_drop]
    have hfig : kb_figure d =
        (l.drop 2).reverse.map digitChar ++ '.' :: (l.take 2).reverse.map digitChar := by
      rw [kb_figure_eq, ← hk, hlen_all, hrev, List.take_left' hpre_len,
        List.drop_left' hpre_len]
    have hip : ∀ x ∈ (l.drop 2).reverse, x < 10 := by
      intro x hx
      exact hdig x (List.drop_subset 2 l (List.mem_reverse.mp hx))
    have hfp : ∀ x ∈ (l.take 2).reverse, x < 10 := by
      intro x hx
      exact hdig x (List.take_subset 2 l (List.mem_reverse.mp hx))
    rw [hfig, parseDecimal_digits _ _ hip hfp, valNat_reverse, valNat_reverse,
      List.length_reverse, hlo_len]
    have hofk : Nat.ofDigits 10 l = k := by
      rw [hl, Nat.ofDigits_digits]
    have happ : Nat.ofDigits 10 (l.take 2)
        + 10 ^ (l.take 2).length * Nat.ofDigits 10 (l.drop 2) = k := by
      rw [← Nat.ofDigits_append, ← hsplit, hofk]
    rw [hlo_len, show (10:ℕ) ^ 2 = 100 from by norm_num] at happ
    have hlo_lt : Nat.ofDigits 10 (l.take 2) < 100 := by
      obtain ⟨a, b, hab⟩ := List.length_eq_two.mp hlo_len
      have ha : a < 10 := by
        apply hdig
        exact List.take_subset 2 l (by rw [hab]; simp)
      have hb : b < 10 := by
        apply hdig
        exact List.take_subset 2 l (by rw [hab]; simp)
      rw [hab, Nat.ofDigits_cons, Nat.ofDigits_cons, Nat.ofDigits_nil]
      omega
    have hhi : Nat.ofDigits 10 (l.drop 2) = k / 100 := by omega
    have hlo : Nat.ofDigits 10 (l.take 2) = k % 100 := by omega
    rw [hhi, hlo]
    have hmod : (100 : ℚ) * ((k / 100 : ℕ) : ℚ) + ((k % 100 : ℕ) : ℚ) = (k : ℚ) := by
      exact_mod_cast Nat.div_add_mod k 100
    field_simp
    linarith

/-! ### Helper lemmas: rational floor and CPython `.0f` rounding -/

theorem qfloor_eq_floor (q : ℚ) : qfloor q = ⌊q⌋ := by
  rw [Rat.floor_def, qfloor, Int.fdiv_eq_ediv _ (by positivity)]

theorem roundHalfEven_eq (q : ℚ) :
    roundHalfEven q =
      if q - ⌊q⌋ < 1 / 2 then ⌊q⌋
      else if 1 / 2 < q - ⌊q⌋ then ⌊q⌋ + 1
      else if 2 ∣ ⌊q⌋ then ⌊q⌋ else ⌊q⌋ + 1 := by
  rw [roundHalfEven, qfloor_eq_floor]

/-! ### Claim C3 — explicit allow-list selection -/

/-- C3, counterexample, falsifying both failing clauses of the claim
at concrete inputs.  First, the claim quantifies over every non-null
allow-list, but for the (non-null) empty list the selection does not
return exactly the actions whose name is a member — `self.actions` is
falsy for `[]`, so the `can_execute` fallback fires and
`Action_Compress_PNG` is returned although its name is in no list.
Second, the claim promises no two returned actions share an
`action_name` even if registration produced duplicates, but
`list(set(...))` dedupes by action identity, not by name: with a
second registered action distinct from `Action_Compress_PNG` (a
different `widget_title`) but sharing its `action_name`, both are
returned. -/
theorem c3_counterexample :
    (get_subclass_actions_to_perform image_action_registry (some []) = [Action_Compress_PNG] ∧
      Action_Compress_PNG.action_name ∉ ([] : List String)) ∧
    (Action_Compress_PNG ≠
        ({ Action_Compress_PNG with widget_title := "Compress PNGs (copy)" } : ImageAction) ∧
      (get_subclass_actions_to_perform
          [Action_Compress_PNG,
            { Action_Compress_PNG with widget_title := "Compress PNGs (copy)" }]
          (some ["compress_png"])).map (fun a => a.action_name) =
        ["compress_png", "compress_png"]) := by
  decide

/-- C3 (amended): for every non-null **non-empty** allow-list and
every registration, selection returns exactly the registered actions
whose `action_name` is a member of the list, regardless of
`can_execute`, unknown identifiers being silently ignored, and the
result holds no duplicate registered-action entry (`list(set(...))`
dedupes by the action itself).  Dedupe is **not** by `action_name`:
when registration produced two distinct actions sharing a name, both
are returned (last conjunct, at the duplicate registration of the
counterexample). -/
theorem c3_amended :
    (∀ (registry : List ImageAction) (explicit_ids : List String), explicit_ids ≠ [] →
      (∀ a : ImageAction,
        a ∈ get_subclass_actions_to_perform registry (some explicit_ids) ↔
          a ∈ registry ∧ a.action_name ∈ explicit_ids) ∧
      (get_subclass_actions_to_perform registry (some explicit_ids)).Nodup) ∧
    (get_subclass_actions_to_perform
        [Action_Compress_PNG,
          { Action_Compress_PNG with widget_title := "Compress PNGs (copy)" }]
        (some ["compress_png"])).map (fun a => a.action_name) =
      ["compress_png", "compress_png"] := by
  refine ⟨?_, by decide⟩
  intro registry explicit_ids h
  have ht : actions_truthy (some explicit_ids) = true := by
    cases explicit_ids with
    | nil => exact absurd rfl h
    | cons x xs => rfl
  refine ⟨fun a => ?_, List.nodup_dedup _⟩
  simp [get_subclass_actions_to_perform, ht, List.mem_dedup, List.mem_filter]

/-- C3, witness at the actual registry and the one-element allow-list
`["compress_png"]`. -/
theorem c3_witness :
    (Action_Compress_PNG ∈ get_subclass_actions_to_perform image_action_registry
        (some ["compress_png"]) ↔
      Action_Compress_PNG ∈ image_action_registry ∧
        Action_Compress_PNG.action_name ∈ ["compress_png"]) ∧
    (get_subclass_actions_to_perform image_action_registry (some ["compress_png"])).Nodup := by
  have h := c3_amended.1 image_action_registry ["compress_png"] (by decide)
  exact ⟨h.1 Action_Compress_PNG, h.2⟩

/-! ### Claim C10 — empty allow-list -/

/-- C10, counterexample: an `-actions=` argument selecting nothing
does **not** produce the empty allow-list — `''.split(',')` is
`[""]`, a non-empty list — and under that list the selection returns
the empty set (no registered action is named `""`), not the
default-enabled actions. -/
theorem c10_counterexample :
    run_parse_actions ["-headless", "-actions="] = some [""] ∧
    some [""] ≠ some ([] : List String) ∧
    get_subclass_actions_to_perform image_action_registry (some [""]) = [] := by
  decide

/-- C10 (amended): an allow-list that **is** the empty list is falsy,
so selection behaves as if no allow-list were supplied and returns
exactly the registered actions with `can_execute` true; but
`-actions=` with an empty value parses to `[""]` (one empty
identifier), under which selection returns no actions. -/
theorem c10_amended :
    (∀ (registry : List ImageAction) (a : ImageAction),
      (a ∈ get_subclass_actions_to_perform registry (some []) ↔
        a ∈ registry ∧ a.can_execute = true) ∧
      (a ∈ get_subclass_actions_to_perform registry none ↔
        a ∈ registry ∧ a.can_execute = true)) ∧
    run_parse_actions ["-actions="] = some [""] ∧
    get_subclass_actions_to_perform image_action_registry (some [""]) = [] := by
  refine ⟨?_, by decide, by decide⟩
  intro registry a
  constructor <;>
    simp [get_subclass_actions_to_perform, actions_truthy, List.mem_dedup, List.mem_filter]

/-! ### Claim C4 — compress on a non-PNG file -/

/-- C4: on any file whose lowered name does not end in `".png"`, the
compress action returns `(false, "<basename> is not a PNG file")`,
the world (every byte of every file) is unchanged, and the image
object is untouched (in particular never opened). -/
theorem c4_not_png (reencode : PILImage → List Nat) (w : World) (image_obj : Image_Object)
    (h : lower_endswith image_obj.filename ".png" = false) :
    Action_Compress_PNG_execute reencode w image_obj =
      ((false, basename image_obj.filename ++ " is not a PNG file"), w, image_obj) := by
  simp [Action_Compress_PNG_execute, h]

/-- C4, witness on `"photos/a.jpg"`. -/
theorem c4_witness :
    lower_endswith "photos/a.jpg" ".png" = false ∧
    Action_Compress_PNG_execute (reencode_const 5) (world_bytes 9) (fresh_obj "photos/a.jpg") =
      ((false, "a.jpg is not a PNG file"), world_bytes 9, fresh_obj "photos/a.jpg") := by
  refine ⟨by decide, ?_⟩
  rw [c4_not_png (reencode_const 5) (world_bytes 9) (fresh_obj "photos/a.jpg") (by decide)]
  rfl

/-! ### Helper lemmas: the compress action on PNG inputs -/

theorem ensure_open_filename (w : World) (o : Image_Object) :
    (ensure_open w o).filename = o.filename := by
  unfold ensure_open
  by_cases h : o.is_open <;> simp [h, image_open]

theorem image_save_snd_filename (re : PILImage → List Nat) (w : World) (o : Image_Object) :
    (image_save re w o).2.filename = o.filename := by
  unfold image_save
  dsimp only
  split
  · split <;> rfl
  · rfl

/-- On a PNG input the compress action reduces to a three-way case
split on the on-disk size after `save` versus before. -/
theorem compress_png_branches (reencode : PILImage → List Nat) (w : World)
    (image_obj : Image_Object) (hpng : lower_endswith image_obj.filename ".png" = true) :
    Action_Compress_PNG_execute reencode w image_obj =
      ((if ((image_save reencode w (ensure_open w image_obj)).1.content
              image_obj.filename).length < (w.content image_obj.filename).length then
          (true, "Compression saved "
            ++ kb_str ((w.content image_obj.filename).length -
                ((image_save reencode w (ensure_open w image_obj)).1.content
                  image_obj.filename).length)
            ++ " kbs on disk")
        else if ((image_save reencode w (ensure_open w image_obj)).1.content
              image_obj.filename).length = (w.content image_obj.filename).length then
          (false, "Compression did not save any memory on disk")
        else (false, "Failed to complete the action for unknown reasons")),
       (image_save reencode w (ensure_open w image_obj)).1,
       (image_save reencode w (ensure_open w image_obj)).2) := by
  unfold Action_Compress_PNG_execute
  simp only [hpng, if_true]
  rw [image_save_snd_filename, ensure_open_filename]
  set B := (w.content image_obj.filename).length with hB
  set A := ((image_save reencode w (ensure_open w image_obj)).1.content
    image_obj.filename).length with hA
  rcases Nat.lt_trichotomy A B with hlt | heq | hgt
  · rw [if_pos (by omega : (0:Int) < (B : Int) - (A : Int)), if_pos hlt]
    have ht : ((B : Int) - (A : Int)).toNat = B - A := by omega
    rw [ht]
  · rw [if_neg (by omega : ¬ (0:Int) < (B : Int) - (A : Int)),
      if_pos (by omega : (B : Int) - (A : Int) = 0), if_neg (by omega : ¬ A < B),
      if_pos heq]
  · rw [if_neg (by omega : ¬ (0:Int) < (B : Int) - (A : Int)),
      if_neg (by omega : ¬ (B : Int) - (A : Int) = 0), if_neg (by omega : ¬ A < B),
      if_neg (by omega : ¬ A = B)]

/-! ### Claim C6 — compress when the re-saved size does not shrink -/

/-- C6, counterexample: when the re-saved size is strictly greater
(100 bytes re-encoded to 200), the message is the untouched
initialisation `"Failed to complete the action for unknown reasons"`,
not the equal-case message the claim asserts. -/
theorem c6_counterexample :
    (Action_Compress_PNG_execute (reencode_const 200) (world_bytes 100) (fresh_obj "a.png")).1 =
      (false, "Failed to complete the action for unknown reasons") ∧
    "Failed to complete the action for unknown reasons" ≠
      "Compression did not save any memory on disk" := by
  decide

/-- C6 (amended): a re-saved size greater than or equal to the
original is a failure in both cases, but the messages differ — the
equal case reports `"Compression did not save any memory on disk"`,
the strictly-greater case falls through to the initial
`"Failed to complete the action for unknown reasons"`. -/
theorem c6_amended (reencode : PILImage → List Nat) (w : World) (image_obj : Image_Object)
    (hpng : lower_endswith image_obj.filename ".png" = true)
    (orig newsz : Nat)
    (horig : orig = (w.content image_obj.filename).length)
    (hnew : newsz = ((image_save reencode w (ensure_open w image_obj)).1.content
        image_obj.filename).length) :
    (newsz = orig →
      (Action_Compress_PNG_execute reencode w image_obj).1 =
        (false, "Compression did not save any memory on disk")) ∧
    (orig < newsz →
      (Action_Compress_PNG_execute reencode w image_obj).1 =
        (false, "Failed to complete the action for unknown reasons")) := by
  subst horig hnew
  refine ⟨fun h => ?_, fun h => ?_⟩
  · rw [compress_png_branches reencode w image_obj hpng]
    dsimp only
    rw [if_neg (by omega), if_pos h]
  · rw [compress_png_branches reencode w image_obj hpng]
    dsimp only
    rw [if_neg (by omega), if_neg (by omega)]

/-- C6, witness: an 80-byte PNG re-encoded to 80 bytes (equal case)
and to 90 bytes (growth case). -/
theorem c6_witness :
    lower_endswith "a.png" ".png" = true ∧
    (Action_Compress_PNG_execute (reencode_const 80) (world_bytes 80) (fresh_obj "a.png")).1 =
      (false, "Compression did not save any memory on disk") ∧
    (Action_Compress_PNG_execute (reencode_const 90) (world_bytes 80) (fresh_obj "a.png")).1 =
      (false, "Failed to complete the action for unknown reasons") := by
  refine ⟨by decide, ?_, ?_⟩
  · exact (c6_amended (reencode_const 80) (world_bytes 80) (fresh_obj "a.png") (by decide)
      80 80 (by decide) (by decide)).1 rfl
  · exact (c6_amended (reencode_const 90) (world_bytes 80) (fresh_obj "a.png") (by decide)
      80 90 (by decide) (by decide)).2 (by omega)

/-! ### Claim C5 — the compress saving figure -/

/-- C5, counterexample: a 120-byte PNG re-encoded to 100 bytes (delta
20 bytes, truncated integer `kb_int 20 = 1`, a single digit) is
reported as `".1"` kbs — a numeral denoting `1/10`, not the claimed
two-decimal truncation `kb_int 20 / 100 = 1/100` of the delta. -/
theorem c5_counterexample :
    (Action_Compress_PNG_execute (reencode_const 100) (world_bytes 120) (fresh_obj "a.png")).1 =
      (true, "Compression saved .1 kbs on disk") ∧
    parseDecimal ".1".data ≠ some ((kb_int 20 : ℚ) / 100) := by
  refine ⟨by decide, ?_⟩
  simp [parseDecimal, valNatC, charVal, List.takeWhile, List.dropWhile, List.all, kb_int]

/-- C5 (amended): when the re-saved size shrinks, the action succeeds
with the spliced figure `kb_str (orig - new)`, and that figure
denotes the two-decimal truncation `(orig - new) * 100 / 1024 / 100`
of the kilobyte delta whenever the truncated integer is `0` or has at
least two digits; for a single-digit truncated integer `d` the figure
`".d"` denotes `d/10` instead (see the counterexample). -/
theorem c5_amended (reencode : PILImage → List Nat) (w : World) (image_obj : Image_Object)
    (hpng : lower_endswith image_obj.filename ".png" = true)
    (orig newsz : Nat)
    (horig : orig = (w.content image_obj.filename).length)
    (hnew : newsz = ((image_save reencode w (ensure_open w image_obj)).1.content
        image_obj.filename).length)
    (hlt : newsz < orig)
    (hk : kb_int (orig - newsz) = 0 ∨ 10 ≤ kb_int (orig - newsz)) :
    (Action_Compress_PNG_execute reencode w image_obj).1 =
      (true, "Compression saved " ++ kb_str (orig - newsz) ++ " kbs on disk") ∧
    parseDecimal (kb_figure (orig - newsz)) = some ((kb_int (orig - newsz) : ℚ) / 100) := by
  subst horig hnew
  refine ⟨?_, parse_kb_figure _ hk⟩
  rw [compress_png_branches reencode w image_obj hpng]
  dsimp only
  rw [if_pos hlt]

/-- C5, witness: a 128-byte PNG re-encoded to 16 bytes (delta 112
bytes, `kb_int 112 = 10`), figure `".10"` denoting `10/100`. -/
theorem c5_witness :
    lower_endswith "a.png" ".png" = true ∧ 16 < 128 ∧ 10 ≤ kb_int (128 - 16) ∧
    (Action_Compress_PNG_execute (reencode_const 16) (world_bytes 128) (fresh_obj "a.png")).1 =
      (true, "Compression saved .10 kbs on disk") ∧
    parseDecimal (kb_figure (128 - 16)) = some ((kb_int (128 - 16) : ℚ) / 100) := by
  have h := c5_amended (reencode_const 16) (world_bytes 128) (fresh_obj "a.png") (by decide)
    128 16 (by decide) (by decide) (by decide) (Or.inr (by decide))
  refine ⟨by decide, by decide, by decide, ?_, h.2⟩
  rw [h.1]
  decide

/-! ### Claim C7 — the power-of-two check -/

/-- C7, counterexample: the failure message never cites which
dimension failed — a 300×128 image (width fails) and a 128×300 image
(height fails) produce messages with identical non-numeral text
`"Either Width: or Height: is NOT a proper power of 2"`. -/
theorem c7_counterexample : ¬ claim_pow2_cites_failure := by
  intro h
  exact h (world_of (img_sized 300 128)) (world_of (img_sized 128 300))
    (fresh_obj "a.png") (fresh_obj "b.png") (img_sized 300 128) (img_sized 128 300)
    (by decide) (by decide) (by decide) (by decide) (by decide) (by decide) (by decide)

/-- C7 (amended): the check succeeds iff both dimensions pass the bit
trick `n != 0 and (n & (n - 1)) == 0`; the failure message reports
both dimensions but only says that either the width or the height is
not a power of two, without citing which. -/
theorem c7_amended (w : World) (image_obj : Image_Object) (img : PILImage)
    (himg : (ensure_open w image_obj).image = some img) :
    ((Action_Check_Power_Of_2_execute w image_obj).1.1 = true ↔
      pow2_bit img.width = true ∧ pow2_bit img.height = true) ∧
    ((Action_Check_Power_Of_2_execute w image_obj).1.1 = false →
      (Action_Check_Power_Of_2_execute w image_obj).1.2 =
        "Either Width:" ++ natStr img.width ++ " or Height:" ++ natStr img.height
          ++ " is NOT a proper power of 2") := by
  simp only [Action_Check_Power_Of_2_execute, himg, Option.getD_some]
  by_cases hw : pow2_bit img.width <;> by_cases hh : pow2_bit img.height <;>
    simp [hw, hh]

/-- C7, witness on a 300×128 image. -/
theorem c7_witness :
    (Action_Check_Power_Of_2_execute (world_of (img_sized 300 128))
        (fresh_obj "a.png")).1.1 = false ∧
    (Action_Check_Power_Of_2_execute (world_of (img_sized 300 128))
        (fresh_obj "a.png")).1.2 =
      "Either Width:" ++ natStr (img_sized 300 128).width ++ " or Height:"
        ++ natStr (img_sized 300 128).height ++ " is NOT a proper power of 2" := by
  have h := c7_amended (world_of (img_sized 300 128)) (fresh_obj "a.png")
    (img_sized 300 128) (by decide)
  exact ⟨by decide, h.2 (by decide)⟩

/-! ### Claim C8 — PBR metal-channel validation -/

/-- On a `_mra.png` file whose mode binds the channel variables, the
PBR action reduces to the bad-pixel case split. -/
theorem pbr_mra_cases (w : World) (image_obj : Image_Object) (img : PILImage)
    (hsuffix : lower_endswith image_obj.filename "_mra.png" = true)
    (himg : (ensure_open w image_obj).image = some img)
    (hmode : img.mode = "RGB" ∨ img.mode = "RGBA") :
    Action_Verify_PBR_Values_execute w image_obj =
      (if 0 < img.red.countP (fun pixel => decide (0 < pixel) && decide (pixel < 255)) then
        .ok ((false,
          (if roundHalfEven
              ((img.red.countP (fun pixel => decide (0 < pixel) && decide (pixel < 255)) : ℚ)
                / (img.red.length : ℚ) * 100) = 0 then "Less than 0"
            else natStr (roundHalfEven
              ((img.red.countP (fun pixel => decide (0 < pixel) && decide (pixel < 255)) : ℚ)
                / (img.red.length : ℚ) * 100)).toNat)
            ++ "% of the pixels in the red channel are not valid METAL values"),
          ensure_open w image_obj)
      else .ok ((true, "Passed all PBR validation tests"), ensure_open w image_obj)) := by
  have hmode' : (img.mode = "RGB" || img.mode = "RGBA") = true := by
    rcases hmode with h | h <;> simp [h]
  simp only [Action_Verify_PBR_Values_execute, himg, Option.getD_some, hmode',
    ensure_open_filename, hsuffix, if_true]

/-- C8, counterexample: 1 bad pixel of 150 is an exact percentage of
`2/3`, which `"{0:.0f}"` **rounds** to `1` — the message reads
`"1% ..."` — while the claim's floored rendering would be
`"Less than 0% ..."`. -/
theorem c8_counterexample :
    Action_Verify_PBR_Values_execute (world_of (img_mra (128 :: List.replicate 149 0)))
        (fresh_obj "t_mra.png") =
      .ok ((false, "1% of the pixels in the red channel are not valid METAL values"),
        ensure_open (world_of (img_mra (128 :: List.replicate 149 0)))
          (fresh_obj "t_mra.png")) ∧
    "1% of the pixels in the red channel are not valid METAL values" ≠ pbr_floor_msg 1 150 := by
  constructor
  · rw [pbr_mra_cases _ _ (img_mra (128 :: List.replicate 149 0)) (by decide) (by decide)
      (Or.inl rfl)]
    rw [show (img_mra (128 :: List.replicate 149 0)).red.countP
        (fun pixel => decide (0 < pixel) && decide (pixel < 255)) = 1 from by decide]
    rw [show (img_mra (128 :: List.replicate 149 0)).red.length = 150 from by decide]
    have hr : roundHalfEven (((1:ℕ) : ℚ) / ((150:ℕ) : ℚ) * 100) = 1 := by
      have hq : ((1:ℕ) : ℚ) / ((150:ℕ) : ℚ) * 100 = 2/3 := by norm_num
      rw [hq, roundHalfEven_eq]
      norm_num [Int.floor_eq_iff]
    rw [if_pos (by norm_num), hr, if_neg (by norm_num)]
    rfl
  · have hmsg : pbr_floor_msg 1 150 =
        "Less than 0% of the pixels in the red channel are not valid METAL values" := by
      unfold pbr_floor_msg
      have hf : qfloor (((1:ℕ) : ℚ) / ((150:ℕ) : ℚ) * 100) = 0 := by
        have hq : ((1:ℕ) : ℚ) / ((150:ℕ) : ℚ) * 100 = 2/3 := by norm_num
        rw [hq, qfloor_eq_floor]
        norm_num [Int.floor_eq_iff]
      rw [hf]
      decide
    rw [hmsg]
    decide

/-- C8 (amended): zero bad pixels pass; `bad > 0` fails with the
percentage `bad / total * 100` **rounded to the nearest integer with
ties to even** (CPython `.0f` formatting, here applied to the exact
rational value), and the `"Less than"` prefix appears exactly when
that rounded figure is `0`. -/
theorem c8_amended (w : World) (image_obj : Image_Object) (img : PILImage)
    (hsuffix : lower_endswith image_obj.filename "_mra.png" = true)
    (himg : (ensure_open w image_obj).image = some img)
    (hmode : img.mode = "RGB" ∨ img.mode = "RGBA") :
    (img.red.countP (fun pixel => decide (0 < pixel) && decide (pixel < 255)) = 0 →
      Action_Verify_PBR_Values_execute w image_obj =
        .ok ((true, "Passed all PBR validation tests"), ensure_open w image_obj)) ∧
    (0 < img.red.countP (fun pixel => decide (0 < pixel) && decide (pixel < 255)) →
      Action_Verify_PBR_Values_execute w image_obj =
        .ok ((false,
          (if roundHalfEven
              ((img.red.countP (fun pixel => decide (0 < pixel) && decide (pixel < 255)) : ℚ)
                / (img.red.length : ℚ) * 100) = 0 then "Less than 0"
            else natStr (roundHalfEven
              ((img.red.countP (fun pixel => decide (0 < pixel) && decide (pixel < 255)) : ℚ)
                / (img.red.length : ℚ) * 100)).toNat)
            ++ "% of the pixels in the red channel are not valid METAL values"),
          ensure_open w image_obj)) := by
  rw [pbr_mra_cases w image_obj img hsuffix himg hmode]
  refine ⟨fun h => ?_, fun h => ?_⟩
  · rw [if_neg (by omega)]
  · rw [if_pos h]

/-- C8, witness: an `_mra.png` RGB file whose red channel is pure
0/255 passes. -/
theorem c8_witness :
    lower_endswith "t_mra.png" "_mra.png" = true ∧
    Action_Verify_PBR_Values_execute (world_of (img_mra [0, 255])) (fresh_obj "t_mra.png") =
      .ok ((true, "Passed all PBR validation tests"),
        ensure_open (world_of (img_mra [0, 255])) (fresh_obj "t_mra.png")) := by
  refine ⟨by decide, ?_⟩
  exact (c8_amended (world_of (img_mra [0, 255])) (fresh_obj "t_mra.png") (img_mra [0, 255])
    (by decide) (by decide) (Or.inl rfl)).1 (by decide)

/-! ### Claim C9 — report invariant, and the engine run lemmas for C1/C2 -/

/-- One report bookkeeping step preserves the failures-are-exactly-
the-failed-results invariant. -/
theorem log_step_inv (log : LogFile) (filename action_name : String) (success : Bool)
    (results : String) (h : log_inv log) :
    log_inv (log_step log filename action_name success results) := by
  intro f
  simp only [log_step, add_file_result, add_file_fail]
  cases success with
  | false =>
    simp only [Bool.false_eq_true, if_false]
    by_cases hf : f = filename
    · subst hf
      simp [h f, List.filter_append, List.map_append]
    · simp [hf, h f]
  | true =>
    simp only [if_true]
    by_cases hf : f = filename
    · subst hf
      simp [h f, List.filter_append, List.map_append]
    · simp [hf, h f]

theorem exec_pairs_cons (behavior : String → String → Except String (Bool × String))
    (path : String) (a : ImageAction) (rest : List (String × ImageAction)) (st : EngState) :
    exec_pairs behavior ((path, a) :: rest) st =
      if st.err.isSome then st
      else
        match behavior a.action_name path with
        | .error e =>
          { st with err := some e, processed := st.processed ++ [(path, a.action_name)] }
        | .ok (success, results) =>
          exec_pairs behavior rest
            { st with
              log := log_step st.log path a.action_name success results,
              processed := st.processed ++ [(path, a.action_name)] } := rfl

/-- C9: the report invariant — for every file, `file_fails` is exactly
the `passed == false` subset of `file_results` — is maintained by
every engine step: any run of `execute` calls starting from a report
satisfying it ends in a report satisfying it (each `.ok` step records
via `add_file_result` and, exactly on failure, `add_file_fail`). -/
theorem c9_invariant (behavior : String → String → Except String (Bool × String))
    (pairs : List (String × ImageAction)) (st : EngState) (h : log_inv st.log) :
    log_inv (exec_pairs behavior pairs st).log := by
  induction pairs generalizing st with
  | nil => exact h
  | cons p rest ih =>
    obtain ⟨path, a⟩ := p
    rw [exec_pairs_cons]
    by_cases he : st.err.isSome
    · rw [if_pos he]
      exact h
    · rw [if_neg he]
      rcases hb : behavior a.action_name path with e | ⟨s, r⟩
      · exact h
      · exact ih _ (log_step_inv _ _ _ _ _ h)

/-- C9, witness: one failing step on a fresh report. -/
theorem c9_witness :
    log_inv (exec_pairs behavior_fail [("d/a.png", Action_Compress_PNG)]
      { log := Log_File_new "r.xml", status_value := 0, written := none,
        err := none, processed := [] }).log :=
  c9_invariant behavior_fail [("d/a.png", Action_Compress_PNG)]
    { log := Log_File_new "r.xml", status_value := 0, written := none,
      err := none, processed := [] } (fun _ => rfl)

theorem exec_pairs_err (behavior : String → String → Except String (Bool × String))
    (pairs : List (String × ImageAction)) (st : EngState) (h : st.err.isSome) :
    exec_pairs behavior pairs st = st := by
  cases pairs with
  | nil => rfl
  | cons p rest =>
    obtain ⟨path, a⟩ := p
    rw [exec_pairs_cons, if_pos h]

theorem exec_pairs_append (behavior : String → String → Except String (Bool × String))
    (xs ys : List (String × ImageAction)) (st : EngState) :
    exec_pairs behavior (xs ++ ys) st = exec_pairs behavior ys (exec_pairs behavior xs st) := by
  induction xs generalizing st with
  | nil => rfl
  | cons p rest ih =>
    obtain ⟨path, a⟩ := p
    rw [List.cons_append, exec_pairs_cons, exec_pairs_cons]
    by_cases he : st.err.isSome
    · rw [if_pos he, if_pos he, exec_pairs_err _ _ _ he]
    · rw [if_neg he, if_neg he]
      rcases hb : behavior a.action_name path with e | ⟨s, r⟩
      · rw [exec_pairs_err _ _ _ (by simp)]
      · exact ih _

theorem exec_pairs_congr (behavior : String → String → Except String (Bool × String))
    (pairs : List (String × ImageAction)) : ∀ st1 st2 : EngState,
    st1.log = st2.log → st1.err = st2.err → st1.written = st2.written →
    st1.processed = st2.processed →
    (exec_pairs behavior pairs st1).log = (exec_pairs behavior pairs st2).log ∧
    (exec_pairs behavior pairs st1).err = (exec_pairs behavior pairs st2).err ∧
    (exec_pairs behavior pairs st1).written = (exec_pairs behavior pairs st2).written ∧
    (exec_pairs behavior pairs st1).processed = (exec_pairs behavior pairs st2).processed := by
  induction pairs with
  | nil => exact fun st1 st2 h1 h2 h3 h4 => ⟨h1, h2, h3, h4⟩
  | cons p rest ih =>
    obtain ⟨path, a⟩ := p
    intro st1 st2 h1 h2 h3 h4
    rw [exec_pairs_cons, exec_pairs_cons]
    by_cases he : st1.err.isSome
    · rw [if_pos he, if_pos (by rw [← h2]; exact he)]
      exact ⟨h1, h2, h3, h4⟩
    · rw [if_neg he, if_neg (by rw [← h2]; exact he)]
      rcases hb : behavior a.action_name path with e | ⟨s, r⟩
      · exact ⟨by simp [h1], by simp, by simp [h3], by simp [h4]⟩
      · exact ih _ _ (by simp [h1]) (by simp [h2]) (by simp [h3]) (by simp [h4])

theorem run_file_core (behavior : String → String → Except String (Bool × String))
    (incr : ℚ) (actions : List ImageAction) (path : String) (st : EngState) :
    (run_file behavior incr actions path st).log =
      (exec_pairs behavior (actions.map (fun a => (path, a))) st).log ∧
    (run_file behavior incr actions path st).err =
      (exec_pairs behavior (actions.map (fun a => (path, a))) st).err ∧
    (run_file behavior incr actions path st).written =
      (exec_pairs behavior (actions.map (fun a => (path, a))) st).written ∧
    (run_file behavior incr actions path st).processed =
      (exec_pairs behavior (actions.map (fun a => (path, a))) st).processed := by
  unfold run_file
  by_cases he : st.err.isSome
  · rw [if_pos he, exec_pairs_err _ _ _ he]
    exact ⟨rfl, rfl, rfl, rfl⟩
  · rw [if_neg he]
    exact exec_pairs_congr behavior _ _ _ rfl rfl rfl rfl

theorem run_files_core (behavior : String → String → Except String (Bool × String))
    (incr : ℚ) (actions : List ImageAction) :
    ∀ (paths : List String) (st1 st2 : EngState),
    st1.log = st2.log → st1.err = st2.err → st1.written = st2.written →
    st1.processed = st2.processed →
    ((paths.foldl (fun st path => run_file behavior incr actions path st) st1).log =
      (exec_pairs behavior
        (paths.flatMap (fun path => actions.map (fun a => (path, a)))) st2).log ∧
    (paths.foldl (fun st path => run_file behavior incr actions path st) st1).err =
      (exec_pairs behavior
        (paths.flatMap (fun path => actions.map (fun a => (path, a)))) st2).err ∧
    (paths.foldl (fun st path => run_file behavior incr actions path st) st1).written =
      (exec_pairs behavior
        (paths.flatMap (fun path => actions.map (fun a => (path, a)))) st2).written ∧
    (paths.foldl (fun st path => run_file behavior incr actions path st) st1).processed =
      (exec_pairs behavior
        (paths.flatMap (fun path => actions.map (fun a => (path, a)))) st2).processed) := by
  intro paths
  induction paths with
  | nil => exact fun st1 st2 h1 h2 h3 h4 => ⟨h1, h2, h3, h4⟩
  | cons p rest ih =>
    intro st1 st2 h1 h2 h3 h4
    rw [List.foldl_cons, List.flatMap_cons, exec_pairs_append]
    have hA := run_file_core behavior incr actions p st1
    have hB := exec_pairs_congr behavior (actions.map (fun a => (p, a))) st1 st2 h1 h2 h3 h4
    exact ih (run_file behavior incr actions p st1)
      (exec_pairs behavior (actions.map (fun a => (p, a))) st2)
      (hA.1.trans hB.1) (hA.2.1.trans hB.2.1) (hA.2.2.1.trans hB.2.2.1)
      (hA.2.2.2.trans hB.2.2.2)

theorem run_dirs_core (behavior : String → String → Except String (Bool × String))
    (incr : ℚ) (actions : List ImageAction) (fs : String → Option (List String))
    (extensions : List String) :
    ∀ (dirs : List String) (st1 st2 : EngState),
    st1.log = st2.log → st1.err = st2.err → st1.written = st2.written →
    st1.processed = st2.processed →
    ((dirs.foldl (fun st directory => (get_image_files fs extensions directory).foldl
        (fun st path => run_file behavior incr actions path st) st) st1).log =
      (exec_pairs behavior (planned_pairs fs extensions dirs actions) st2).log ∧
    (dirs.foldl (fun st directory => (get_image_files fs extensions directory).foldl
        (fun st path => run_file behavior incr actions path st) st) st1).err =
      (exec_pairs behavior (planned_pairs fs extensions dirs actions) st2).err ∧
    (dirs.foldl (fun st directory => (get_image_files fs extensions directory).foldl
        (fun st path => run_file behavior incr actions path st) st) st1).written =
      (exec_pairs behavior (planned_pairs fs extensions dirs actions) st2).written ∧
    (dirs.foldl (fun st directory => (get_image_files fs extensions directory).foldl
        (fun st path => run_file behavior incr actions path st) st) st1).processed =
      (exec_pairs behavior (planned_pairs fs extensions dirs actions) st2).processed) := by
  intro dirs
  induction dirs with
  | nil => exact fun st1 st2 h1 h2 h3 h4 => ⟨h1, h2, h3, h4⟩
  | cons d rest ih =>
    intro st1 st2 h1 h2 h3 h4
    have hplan : planned_pairs fs extensions (d :: rest) actions =
        ((get_image_files fs extensions d).flatMap
          (fun path => actions.map (fun a => (path, a))))
          ++ planned_pairs fs extensions rest actions := by
      unfold planned_pairs
      rw [List.flatMap_cons, List.flatMap_append]
    rw [List.foldl_cons, hplan, exec_pairs_append]
    have hA := run_files_core behavior incr actions (get_image_files fs extensions d)
      st1 st2 h1 h2 h3 h4
    exact ih _ _ hA.1 hA.2.1 hA.2.2.1 hA.2.2.2

theorem exec_pairs_first_error (behavior : String → String → Except String (Bool × String)) :
    ∀ (pre : List (String × ImageAction)) (p : String × ImageAction)
      (post : List (String × ImageAction)) (st : EngState) (e : String),
    st.err = none →
    (∀ q ∈ pre, ∃ r, behavior q.2.action_name q.1 = .ok r) →
    behavior p.2.action_name p.1 = .error e →
    (exec_pairs behavior (pre ++ p :: post) st).err = some e ∧
    (exec_pairs behavior (pre ++ p :: post) st).written = st.written ∧
    (exec_pairs behavior (pre ++ p :: post) st).processed =
      st.processed ++ (pre ++ [p]).map (fun q => (q.1, q.2.action_name)) := by
  intro pre
  induction pre with
  | nil =>
    intro p post st e he hok hfail
    obtain ⟨path, a⟩ := p
    rw [List.nil_append, exec_pairs_cons, if_neg (by simp [he]), hfail]
    exact ⟨rfl, rfl, by simp⟩
  | cons q pre ih =>
    intro p post st e he hok hfail
    obtain ⟨qp, qa⟩ := q
    obtain ⟨⟨s, r⟩, hq⟩ := hok (qp, qa) (by simp)
    rw [List.cons_append, exec_pairs_cons, if_neg (by simp [he]), hq]
    have hnext := ih p post
      { st with
          log := log_step st.log qp qa.action_name s r,
          processed := st.processed ++ [(qp, qa.action_name)] }
      e (by simp [he]) (fun x hx => hok x (by simp [hx])) hfail
    dsimp only
    refine ⟨hnext.1, hnext.2.1, ?_⟩
    rw [hnext.2.2]
    simp [List.append_assoc]

theorem total_file_count_eq_length (fs : String → Option (List String))
    (extensions : List String) (dirs : List String) :
    total_file_count fs extensions dirs =
      (dirs.flatMap (get_image_files fs extensions)).length := by
  induction dirs with
  | nil => rfl
  | cons d rest ih =>
    simp only [total_file_count, List.map_cons, List.sum_cons, List.flatMap_cons,
      List.length_append]
    rw [← ih]
    rfl

/-- C2: if, in the planned sequence of `execute` calls of a run, every
call before some pair `p` succeeds and `p` raises `e`, then the
engine does not catch it: the run ends with the exception `e`, the
trace of `execute` calls is exactly the prefix up to and including
`p` (no later file or action is processed), and nothing is ever
written to the report file. -/
theorem c2_engine_aborts (fs : String → Option (List String))
    (behavior : String → String → Except String (Bool × String))
    (registry : List ImageAction) (dirs extensions : List String)
    (actions : Option (List String)) (log0 : LogFile) (init_status : ℚ)
    (pre : List (String × ImageAction)) (p : String × ImageAction)
    (post : List (String × ImageAction)) (e : String)
    (hplan : planned_pairs fs extensions dirs
        (get_subclass_actions_to_perform registry actions) = pre ++ p :: post)
    (hok : ∀ q ∈ pre, ∃ r, behavior q.2.action_name q.1 = .ok r)
    (hfail : behavior p.2.action_name p.1 = .error e) :
    (Image_Batch_start fs behavior registry dirs extensions actions log0 init_status).err
        = some e ∧
    (Image_Batch_start fs behavior registry dirs extensions actions log0 init_status).written
        = none ∧
    (Image_Batch_start fs behavior registry dirs extensions actions log0 init_status).processed
        = (pre ++ [p]).map (fun q => (q.1, q.2.action_name)) := by
  have hne : dirs.flatMap (get_image_files fs extensions) ≠ [] := by
    intro h0
    rw [planned_pairs, h0] at hplan
    simp at hplan
  have hcount : ¬ total_file_count fs extensions dirs = 0 := by
    rw [total_file_count_eq_length]
    intro h0
    exact hne (List.length_eq_zero.mp h0)
  unfold Image_Batch_start
  rw [if_neg hcount]
  have hrel := run_dirs_core behavior
    (100 / (total_file_count fs extensions dirs : ℚ))
    (get_subclass_actions_to_perform registry actions) fs extensions dirs
    { log := log_clear log0, status_value := 0, written := none, err := none,
      processed := [] }
    { log := log_clear log0, status_value := 0, written := none, err := none,
      processed := [] }
    rfl rfl rfl rfl
  rw [hplan] at hrel
  have hfirst := exec_pairs_first_error behavior pre p post
    { log := log_clear log0, status_value := 0, written := none, err := none,
      processed := [] }
    e rfl hok hfail
  have herr := hrel.2.1.trans hfirst.1
  have hwr := hrel.2.2.1.trans hfirst.2.1
  have hproc := hrel.2.2.2.trans hfirst.2.2
  rw [if_pos (by rw [herr]; rfl)]
  exact ⟨herr, hwr, by rw [hproc]; simp⟩

/-- C2, witness: one directory, one PNG, the one active action
raising on it. -/
theorem c2_witness :
    planned_pairs fs_one_png ["png"] ["d"]
        (get_subclass_actions_to_perform image_action_registry none) =
      [] ++ ("d/a.png", Action_Compress_PNG) :: [] ∧
    behavior_raise Action_Compress_PNG.action_name "d/a.png" =
      .error "IOError: broken file" ∧
    (Image_Batch_start fs_one_png behavior_raise image_action_registry ["d"] ["png"] none
        (Log_File_new "r.xml") 0).err = some "IOError: broken file" ∧
    (Image_Batch_start fs_one_png behavior_raise image_action_registry ["d"] ["png"] none
        (Log_File_new "r.xml") 0).written = none ∧
    (Image_Batch_start fs_one_png behavior_raise image_action_registry ["d"] ["png"] none
        (Log_File_new "r.xml") 0).processed = [("d/a.png", "compress_png")] := by
  have h := c2_engine_aborts fs_one_png behavior_raise image_action_registry ["d"] ["png"]
    none (Log_File_new "r.xml") 0 [] ("d/a.png", Action_Compress_PNG) []
    "IOError: broken file" (by decide) (fun q hq => absurd hq (by simp)) rfl
  exact ⟨by decide, rfl, h.1, h.2.1, by rw [h.2.2]; decide⟩

/-- C1 (amended): a configured directory that does not exist
contributes zero files and raises no error, but a batch whose
directories contain zero matching files does **not** complete: the
per-file progress-increment computation `100.0 / float(file_count)`
raises `ZeroDivisionError`, aborting `start` with the cleared report
unwritten, no file processed, and the progress still at its initial
value rather than 100. -/
theorem c1_amended (fs : String → Option (List String))
    (behavior : String → String → Except String (Bool × String))
    (registry : List ImageAction) (dirs extensions : List String)
    (actions : Option (List String)) (log0 : LogFile) (init_status : ℚ)
    (h : total_file_count fs extensions dirs = 0) :
    (∀ directory, fs directory = none → get_image_files fs extensions directory = []) ∧
    Image_Batch_start fs behavior registry dirs extensions actions log0 init_status =
      { log := log_clear log0, status_value := init_status, written := none,
        err := some "ZeroDivisionError: float division by zero", processed := [] } := by
  constructor
  · intro d hd
    simp [get_image_files, hd]
  · unfold Image_Batch_start
    rw [if_pos h]

/-- C1, counterexample: directories `["missing", "empty"]` (one
nonexistent, one empty) yield zero matching files, and the run ends
with a `ZeroDivisionError`, progress `0` (not `100`) and no report
written — not the immediate clean completion the claim asserts. -/
theorem c1_counterexample :
    (Image_Batch_start fs_no_matches behavior_fail image_action_registry
        ["missing", "empty"] ["png"] none (Log_File_new "r.xml") 0).err =
      some "ZeroDivisionError: float division by zero" ∧
    (Image_Batch_start fs_no_matches behavior_fail image_action_registry
        ["missing", "empty"] ["png"] none (Log_File_new "r.xml") 0).status_value = 0 ∧
    (Image_Batch_start fs_no_matches behavior_fail image_action_registry
        ["missing", "empty"] ["png"] none (Log_File_new "r.xml") 0).written = none ∧
    (0 : ℚ) ≠ 100 := by
  refine ⟨rfl, rfl, rfl, by norm_num⟩

/-- C1, witness for the amended statement at the same configuration. -/
theorem c1_witness :
    total_file_count fs_no_matches ["png"] ["missing", "empty"] = 0 ∧
    fs_no_matches "missing" = none ∧
    get_image_files fs_no_matches ["png"] "missing" = [] ∧
    Image_Batch_start fs_no_matches behavior_fail image_action_registry
        ["missing", "empty"] ["png"] none (Log_File_new "r.xml") 0 =
      { log := log_clear (Log_File_new "r.xml"), status_value := 0, written := none,
        err := some "ZeroDivisionError: float division by zero", processed := [] } := by
  have h := c1_amended fs_no_matches behavior_fail image_action_registry
    ["missing", "empty"] ["png"] none (Log_File_new "r.xml") 0 (by decide)
  exact ⟨by decide, rfl, h.1 "missing" rfl, h.2⟩
